import Mathlib

/-!
Verification of the resource-lifecycle polling and teardown logic of the
amazon-forecast-samples notebooks.

Embedded code:
* the `while True` status-polling loops of the advanced notebook
  (`status = describe(...)["Status"]; if status in ("ACTIVE", "CREATE_FAILED"): break;
  time.sleep(10)`), modelled as a fuel-indexed loop over an abstract stream of
  status snapshots;
* `wait_till_delete` from the immersion-day Cleanup notebook, modelled as a
  fuel-indexed loop over an abstract stream of delete-call outcomes;
* the concrete creation and deletion sequences of the notebooks, as lists of
  resource handles with dependency edges, together with the notebook event
  traces.
-/

namespace ForecastSamples

/-! ## Status-polling loop (advanced notebook)

The notebook loop is:

```
while True:
    status = forecast.describe_dataset_import_job(...)["Status"]
    status_indicator.update(status)
    if status in ("ACTIVE", "CREATE_FAILED"): break
    time.sleep(10)
```

The remote service is abstracted as a stream `statuses : Nat → String` giving
the status returned by the k-th describe call (0-indexed).  The loop is given
explicit `fuel`; `PollOutcome.running` records the loop state when fuel runs
out, so that non-termination within a bound is observable.  `calls` counts
describe invocations, `sleeps` counts executed `time.sleep(10)` statements. -/

/-- `status in ("ACTIVE", "CREATE_FAILED")` — the break condition of the loop. -/
def isTerminalStatus (s : String) : Bool :=
  s == "ACTIVE" || s == "CREATE_FAILED"

/-- Result of running the polling loop under a fuel bound. -/
inductive PollOutcome where
  /-- The loop hit `break` on a terminal status; the final snapshot and the
  counts of describe calls and sleeps are recorded. -/
  | finished (snapshot : String) (calls : Nat) (sleeps : Nat)
  /-- Fuel ran out with the loop still going (it would issue another describe
  call next). -/
  | running (calls : Nat) (sleeps : Nat)
  deriving Repr, DecidableEq

/-- One-to-one embedding of the `while True` polling loop: each iteration makes
one describe call (`statuses calls`), breaks if the status is terminal, and
otherwise sleeps and repeats. -/
def pollLoopAux (statuses : Nat → String) : Nat → Nat → Nat → PollOutcome
  | calls, sleeps, 0 => .running calls sleeps
  | calls, sleeps, fuel + 1 =>
    let status := statuses calls
    if isTerminalStatus status then
      .finished status (calls + 1) sleeps
    else
      pollLoopAux statuses (calls + 1) (sleeps + 1) fuel

/-- The polling loop started from the initial state (no calls, no sleeps). -/
def pollLoop (statuses : Nat → String) (fuel : Nat) : PollOutcome :=
  pollLoopAux statuses 0 0 fuel

/-- Key unfolding lemma: as long as the statuses seen are non-terminal, the
loop advances one call and one sleep per fuel unit; on the first terminal
status it finishes with the exact counts. -/
theorem pollLoopAux_finished (statuses : Nat → String) (n : Nat)
    (hpre : ∀ k, k < n → isTerminalStatus (statuses k) = false)
    (hterm : isTerminalStatus (statuses n) = true) :
    ∀ fuel, n + 1 ≤ fuel →
      pollLoopAux statuses 0 0 fuel = .finished (statuses n) (n + 1) n := by
  suffices h : ∀ m c s, (∀ k, k < m → isTerminalStatus (statuses (c + k)) = false) →
      isTerminalStatus (statuses (c + m)) = true →
      ∀ fuel, m + 1 ≤ fuel →
        pollLoopAux statuses c s fuel = .finished (statuses (c + m)) (c + m + 1) (s + m) by
    intro fuel hfuel
    have := h n 0 0 (by simpa using hpre) (by simpa using hterm) fuel hfuel
    simpa using this
  intro m
  induction m with
  | zero =>
    intro c s _ hterm fuel hfuel
    obtain ⟨f, rfl⟩ : ∃ f, fuel = f + 1 := ⟨fuel - 1, by omega⟩
    have hc : isTerminalStatus (statuses c) = true := by simpa using hterm
    simp [pollLoopAux, hc]
  | succ m ih =>
    intro c s hpre hterm fuel hfuel
    obtain ⟨f, rfl⟩ : ∃ f, fuel = f + 1 := ⟨fuel - 1, by omega⟩
    have hc : isTerminalStatus (statuses c) = false := by
      simpa using hpre 0 (Nat.succ_pos m)
    have step : pollLoopAux statuses c s (f + 1) =
        pollLoopAux statuses (c + 1) (s + 1) f := by
      simp [pollLoopAux, hc]
    rw [step]
    have hpre' : ∀ k, k < m → isTerminalStatus (statuses (c + 1 + k)) = false := by
      intro k hk
      have := hpre (k + 1) (by omega)
      simpa [Nat.add_comm, Nat.add_assoc, Nat.add_left_comm] using this
    have hterm' : isTerminalStatus (statuses (c + 1 + m)) = true := by
      have : c + 1 + m = c + (m + 1) := by omega
      rw [this]; exact hterm
    have := ih (c + 1) (s + 1) hpre' hterm' f (by omega)
    have harith : c + 1 + m = c + (m + 1) := by omega
    rw [this, harith]
    have harith2 : s + 1 + m = s + (m + 1) := by omega
    rw [harith2]

/-- **C1.** Poller success behavior: if the first terminal status is `ACTIVE`
and it appears on the (n+1)-th poll (no earlier poll returns `ACTIVE` or
`CREATE_FAILED`), then for any sufficient fuel the loop makes exactly n + 1
describe calls, returns that terminal snapshot, and has slept exactly n times
— once after each non-terminal poll and never after the terminal one.  For
n = 0 (first poll already terminal) it returns with zero sleeps. -/
theorem poller_success_exact_calls (statuses : Nat → String) (n : Nat)
    (hpre : ∀ k, k < n → isTerminalStatus (statuses k) = false)
    (hactive : statuses n = "ACTIVE") :
    ∀ fuel, n + 1 ≤ fuel →
      pollLoop statuses fuel = .finished "ACTIVE" (n + 1) n := by
  intro fuel hfuel
  have hterm : isTerminalStatus (statuses n) = true := by
    simp [isTerminalStatus, hactive]
  have := pollLoopAux_finished statuses n hpre hterm fuel hfuel
  rw [pollLoop, this, hactive]

/-- Witness for C1 at a concrete input: statuses
`CREATE_IN_PROGRESS, CREATE_IN_PROGRESS, ACTIVE` terminate after exactly 3
calls with 2 sleeps. -/
theorem poller_success_exact_calls_witness :
    pollLoop (fun k => if k < 2 then "CREATE_IN_PROGRESS" else "ACTIVE") 10 =
      .finished "ACTIVE" 3 2 :=
  poller_success_exact_calls (fun k => if k < 2 then "CREATE_IN_PROGRESS" else "ACTIVE")
    2 (by decide) (by decide) 10 (by decide)

/-- Auxiliary: a run of non-terminal statuses consumes fuel one call and one
sleep at a time, leaving the loop `running`. -/
theorem pollLoopAux_running (statuses : Nat → String) :
    ∀ m c s, (∀ k, k < m → isTerminalStatus (statuses (c + k)) = false) →
      pollLoopAux statuses c s m = .running (c + m) (s + m) := by
  intro m
  induction m with
  | zero => intro c s _; simp [pollLoopAux]
  | succ m ih =>
    intro c s hpre
    have hc : isTerminalStatus (statuses c) = false := by
      simpa using hpre 0 (Nat.succ_pos m)
    have step : pollLoopAux statuses c s (m + 1) =
        pollLoopAux statuses (c + 1) (s + 1) m := by
      simp [pollLoopAux, hc]
    rw [step]
    have hpre' : ∀ k, k < m → isTerminalStatus (statuses (c + 1 + k)) = false := by
      intro k hk
      have := hpre (k + 1) (by omega)
      simpa [Nat.add_comm, Nat.add_assoc, Nat.add_left_comm] using this
    rw [ih (c + 1) (s + 1) hpre']
    have h1 : c + 1 + m = c + (m + 1) := by omega
    have h2 : s + 1 + m = s + (m + 1) := by omega
    rw [h1, h2]

/-- Status stream whose first terminal status is `CREATE_FAILED`, on the
second poll. -/
def failedImportStatuses : Nat → String :=
  fun k => if k = 0 then "CREATE_IN_PROGRESS" else "CREATE_FAILED"

/-- **C2 counterexample.** On the stream `CREATE_IN_PROGRESS, CREATE_FAILED`
the notebook loop does NOT fail with any `RemoteOperationFailed` exception: it
exits normally via `break`, with the outcome `.finished "CREATE_FAILED" 2 1` —
the very same constructor the success path uses.  There is no failure case in
the loop semantics at all (`PollOutcome` needs no error constructor to embed
it), refuting "fails ... rather than returning normally": the outcome below is
definitionally a normal loop exit carrying the snapshot, the same shape the
loop produces when the terminal status is `ACTIVE`. -/
theorem poller_failure_no_exception_counterexample :
    pollLoop failedImportStatuses 10 = .finished "CREATE_FAILED" 2 1 := by
  rfl

/-- **C2 amended.** Poller failure behavior as the code actually has it: if the
first terminal status is `CREATE_FAILED`, appearing on the (n+1)-th poll, the
loop terminates after exactly n + 1 describe calls carrying that snapshot and
n sleeps — but it terminates by a normal `break`, exactly like the success
path; no `RemoteOperationFailed` (or any) exception is raised, and failure
detection is left to the subsequent cells inspecting the final status. -/
theorem poller_failure_breaks_normally (statuses : Nat → String) (n : Nat)
    (hpre : ∀ k, k < n → isTerminalStatus (statuses k) = false)
    (hfailed : statuses n = "CREATE_FAILED") :
    ∀ fuel, n + 1 ≤ fuel →
      pollLoop statuses fuel = .finished "CREATE_FAILED" (n + 1) n := by
  intro fuel hfuel
  have hterm : isTerminalStatus (statuses n) = true := by
    simp [isTerminalStatus, hfailed]
  have := pollLoopAux_finished statuses n hpre hterm fuel hfuel
  rw [pollLoop, this, hfailed]

/-- Witness for the amended C2: the two-element failing stream terminates
normally after exactly 2 calls and 1 sleep. -/
theorem poller_failure_breaks_normally_witness :
    pollLoop failedImportStatuses 10 = .finished "CREATE_FAILED" 2 1 :=
  poller_failure_breaks_normally failedImportStatuses 1 (by decide) (by decide)
    10 (by decide)

/-- **C8.** Unrecognized states continue: any status other than `ACTIVE` or
`CREATE_FAILED` fails the break test, so after n such polls the loop has not
terminated, has made exactly n describe calls and slept after every one of
them (`.running n n`), and — given one more fuel unit and another
non-terminal status — issues exactly one more describe call and sleep. -/
theorem poller_unrecognized_states_continue (statuses : Nat → String) (n : Nat)
    (hpre : ∀ k, k < n → isTerminalStatus (statuses k) = false) :
    pollLoop statuses n = .running n n ∧
      (isTerminalStatus (statuses n) = false →
        pollLoop statuses (n + 1) = .running (n + 1) (n + 1)) := by
  constructor
  · have := pollLoopAux_running statuses n 0 0 (by simpa using hpre)
    simpa [pollLoop] using this
  · intro hn
    have hpre' : ∀ k, k < n + 1 → isTerminalStatus (statuses k) = false := by
      intro k hk
      rcases Nat.lt_or_ge k n with h | h
      · exact hpre k h
      · have : k = n := by omega
        rw [this]; exact hn
    have := pollLoopAux_running statuses (n + 1) 0 0 (by simpa using hpre')
    simpa [pollLoop] using this

/-- Witness for C8: a stream of `DELETE_PENDING` statuses (a state outside the
recognized terminal set) keeps the loop running: 2 calls and 2 sleeps after
fuel 2, and a third call and sleep with one more fuel unit. -/
theorem poller_unrecognized_states_continue_witness :
    pollLoop (fun _ => "DELETE_PENDING") 2 = .running 2 2 ∧
      (isTerminalStatus "DELETE_PENDING" = false →
        pollLoop (fun _ => "DELETE_PENDING") 3 = .running 3 3) :=
  poller_unrecognized_states_continue (fun _ => "DELETE_PENDING") 2 (by decide)

/-! ## wait_till_delete (Cleanup notebook)

```
def wait_till_delete(callback, check_time = 5, timeout = None):
    elapsed_time = 0
    while timeout is None or elapsed_time < timeout:
        try:
            out = callback()
        except botocore.exceptions.ClientError as e:
            if e.response["Error"]["Code"] == "ResourceNotFoundException":
                print("Successful delete")
                return
            else:
                raise
        time.sleep(check_time)
        elapsed_time += check_time

    raise TimeoutError( "Forecast resource deletion timed-out." )
```

The callback is abstracted as a stream `callback : Nat → CallOutcome` giving
the behaviour of its k-th invocation (0-indexed): either a normal return
(`ok`, whose value `out` the code discards) or a raised
`botocore.exceptions.ClientError` carrying an error code.  `calls` counts
callback invocations, `sleeps` counts executed `time.sleep(check_time)`
statements, `elapsed` mirrors `elapsed_time`. -/

/-- Behaviour of one callback invocation. -/
inductive CallOutcome where
  /-- The delete call returned normally (its value is discarded by the code). -/
  | ok
  /-- The delete call raised `botocore.exceptions.ClientError` with this
  `e.response["Error"]["Code"]`. -/
  | clientError (code : String)
  deriving Repr, DecidableEq

/-- Result of running `wait_till_delete` under a fuel bound. -/
inductive DeleteOutcome where
  /-- The function returned (the "Successful delete" path). -/
  | success (calls : Nat) (sleeps : Nat)
  /-- A `ClientError` with a code other than `ResourceNotFoundException` was
  re-raised to the caller. -/
  | raised (code : String) (calls : Nat) (sleeps : Nat)
  /-- The `while` condition became false and `TimeoutError` was raised. -/
  | timedOut (calls : Nat) (sleeps : Nat)
  /-- Fuel ran out with the loop still going. -/
  | running (calls : Nat) (sleeps : Nat) (elapsed : Nat)
  deriving Repr, DecidableEq

/-- `timeout is None or elapsed_time < timeout` — the `while` condition. -/
def loopCondition : Option Nat → Nat → Bool
  | none, _ => true
  | some t, e => e < t

/-- One-to-one embedding of the `wait_till_delete` loop body: check the
`while` condition, invoke the callback, return on a
`ResourceNotFoundException` client error, re-raise any other client error,
and otherwise sleep and bump `elapsed_time`. -/
def wait_till_delete_aux (callback : Nat → CallOutcome) (check_time : Nat)
    (timeout : Option Nat) : Nat → Nat → Nat → Nat → DeleteOutcome
  | calls, sleeps, elapsed, 0 => .running calls sleeps elapsed
  | calls, sleeps, elapsed, fuel + 1 =>
    if loopCondition timeout elapsed then
      match callback calls with
      | .clientError code =>
        if code == "ResourceNotFoundException" then
          .success (calls + 1) sleeps
        else
          .raised code (calls + 1) sleeps
      | .ok =>
        wait_till_delete_aux callback check_time timeout
          (calls + 1) (sleeps + 1) (elapsed + check_time) fuel
    else
      .timedOut calls sleeps

/-- `wait_till_delete` started from `elapsed_time = 0` with no calls made. -/
def wait_till_delete (callback : Nat → CallOutcome) (check_time : Nat)
    (timeout : Option Nat) (fuel : Nat) : DeleteOutcome :=
  wait_till_delete_aux callback check_time timeout 0 0 0 fuel

/-- Auxiliary: with no timeout set, a run of normally-returning callback
invocations advances the loop one call, one sleep and one `check_time` of
elapsed time per fuel unit. -/
theorem wait_till_delete_aux_skip_ok (callback : Nat → CallOutcome)
    (check_time : Nat) :
    ∀ m calls sleeps elapsed fuel,
      (∀ k, k < m → callback (calls + k) = .ok) → m ≤ fuel →
      wait_till_delete_aux callback check_time none calls sleeps elapsed fuel =
        wait_till_delete_aux callback check_time none
          (calls + m) (sleeps + m) (elapsed + m * check_time) (fuel - m) := by
  intro m
  induction m with
  | zero => intro calls sleeps elapsed fuel _ _; simp
  | succ m ih =>
    intro calls sleeps elapsed fuel hok hfuel
    obtain ⟨f, rfl⟩ : ∃ f, fuel = f + 1 := ⟨fuel - 1, by omega⟩
    have hc : callback calls = .ok := by simpa using hok 0 (Nat.succ_pos m)
    have step : wait_till_delete_aux callback check_time none calls sleeps elapsed (f + 1) =
        wait_till_delete_aux callback check_time none
          (calls + 1) (sleeps + 1) (elapsed + check_time) f := by
      simp [wait_till_delete_aux, loopCondition, hc]
    rw [step]
    have hok' : ∀ k, k < m → callback (calls + 1 + k) = .ok := by
      intro k hk
      have := hok (k + 1) (by omega)
      simpa [Nat.add_comm, Nat.add_assoc, Nat.add_left_comm] using this
    rw [ih (calls + 1) (sleeps + 1) (elapsed + check_time) f hok' (by omega)]
    have h1 : calls + 1 + m = calls + (m + 1) := by omega
    have h2 : sleeps + 1 + m = sleeps + (m + 1) := by omega
    have h3 : elapsed + check_time + m * check_time = elapsed + (m + 1) * check_time := by
      ring
    have h4 : f - m = f + 1 - (m + 1) := by omega
    rw [h1, h2, h3, h4]

/-- Helper shared by several claims: with no timeout, if the first n callback
invocations return normally and the (n+1)-th raises a `ClientError` with the
given code, the loop stops at that invocation — returning on
`ResourceNotFoundException` and re-raising anything else — after exactly
n + 1 calls and n sleeps. -/
theorem wait_till_delete_first_client_error (callback : Nat → CallOutcome)
    (check_time n : Nat) (code : String)
    (hok : ∀ k, k < n → callback k = .ok)
    (herr : callback n = .clientError code) :
    ∀ fuel, n + 1 ≤ fuel →
      wait_till_delete callback check_time none fuel =
        (if code == "ResourceNotFoundException" then
          DeleteOutcome.success (n + 1) n
        else
          DeleteOutcome.raised code (n + 1) n) := by
  intro fuel hfuel
  rw [wait_till_delete,
    wait_till_delete_aux_skip_ok callback check_time n 0 0 0 fuel
      (by simpa using hok) (by omega)]
  obtain ⟨f, hf⟩ : ∃ f, fuel - n = f + 1 := ⟨fuel - n - 1, by omega⟩
  rw [hf]
  simp [wait_till_delete_aux, loopCondition, herr]

/-- **C3.** Delete-and-confirm call count: with the default `timeout = None`,
if the delete callback returns normally on its first n invocations and raises
the `ResourceNotFoundException` client error on invocation n + 1, then
`wait_till_delete` returns successfully having invoked the callback exactly
n + 1 times and slept exactly n times. -/
theorem wait_till_delete_success_exact_calls (callback : Nat → CallOutcome)
    (check_time n : Nat)
    (hok : ∀ k, k < n → callback k = .ok)
    (hnf : callback n = .clientError "ResourceNotFoundException") :
    ∀ fuel, n + 1 ≤ fuel →
      wait_till_delete callback check_time none fuel = .success (n + 1) n := by
  intro fuel hfuel
  have := wait_till_delete_first_client_error callback check_time n
    "ResourceNotFoundException" hok hnf fuel hfuel
  simpa using this

/-- Stream for witnesses: the first delete call returns normally, the second
raises the `ResourceNotFoundException` client error. -/
def goneAfterOneCall : Nat → CallOutcome :=
  fun k => if k = 0 then .ok else .clientError "ResourceNotFoundException"

/-- Witness for C3 at N = 2: success after exactly 2 calls and 1 sleep. -/
theorem wait_till_delete_success_exact_calls_witness :
    wait_till_delete goneAfterOneCall 5 none 10 = .success 2 1 :=
  wait_till_delete_success_exact_calls goneAfterOneCall 5 1 (by decide) (by decide)
    10 (by decide)

/-- **C7.** Transport-error propagation: with the default `timeout = None`, if
the delete callback returns normally on its first n invocations and on
invocation n + 1 raises a `ClientError` whose code is not
`ResourceNotFoundException`, then `wait_till_delete` re-raises exactly that
error after exactly n + 1 callback invocations — for every larger fuel bound
the outcome is the same, so no further delete calls are ever made in that
run, and the error is neither retried nor reclassified as progress. -/
theorem wait_till_delete_propagates_other_errors (callback : Nat → CallOutcome)
    (check_time n : Nat) (code : String)
    (hok : ∀ k, k < n → callback k = .ok)
    (herr : callback n = .clientError code)
    (hne : code ≠ "ResourceNotFoundException") :
    ∀ fuel, n + 1 ≤ fuel →
      wait_till_delete callback check_time none fuel = .raised code (n + 1) n := by
  intro fuel hfuel
  have := wait_till_delete_first_client_error callback check_time n code hok herr
    fuel hfuel
  simpa [hne] using this

/-- Stream for witnesses: the first delete call returns normally, the second
raises an access-denied client error (not the "resource not found" code). -/
def accessDeniedOnSecondCall : Nat → CallOutcome :=
  fun k => if k = 0 then .ok else .clientError "AccessDeniedException"

/-- Witness for C7: the access-denied error is re-raised after exactly 2
calls and 1 sleep, at two different fuel bounds (no further calls). -/
theorem wait_till_delete_propagates_other_errors_witness :
    wait_till_delete accessDeniedOnSecondCall 5 none 10 =
      .raised "AccessDeniedException" 2 1 ∧
    wait_till_delete accessDeniedOnSecondCall 5 none 100 =
      .raised "AccessDeniedException" 2 1 :=
  ⟨wait_till_delete_propagates_other_errors accessDeniedOnSecondCall 5 1
      "AccessDeniedException" (by decide) (by decide) (by decide) 10 (by decide),
   wait_till_delete_propagates_other_errors accessDeniedOnSecondCall 5 1
      "AccessDeniedException" (by decide) (by decide) (by decide) 100 (by decide)⟩

/-! ### Timeout behaviour -/

/-- Number of loop iterations `wait_till_delete` still executes when
`elapsed_time = elapsed`, the timeout is `timeout` and the poll interval is
`check_time`: the least k with `elapsed + k * check_time ≥ timeout`,
i.e. the ceiling of `(timeout - elapsed) / check_time`. -/
def remainingIterations (timeout check_time elapsed : Nat) : Nat :=
  (timeout - elapsed + check_time - 1) / check_time

/-- Arithmetic step: one more iteration of the loop (adding `check_time` to
`elapsed_time`) decreases the remaining-iteration count by exactly one while
the `while` condition still holds. -/
theorem remainingIterations_step (timeout check_time elapsed : Nat)
    (hc : 0 < check_time) (he : elapsed < timeout) :
    remainingIterations timeout check_time elapsed =
      remainingIterations timeout check_time (elapsed + check_time) + 1 := by
  unfold remainingIterations
  have h1 : timeout - elapsed + check_time - 1 =
      (timeout - elapsed - 1) + check_time := by omega
  rw [h1, Nat.add_div_right _ hc]
  rcases le_or_lt timeout (elapsed + check_time) with hle | hlt
  · have h2 : timeout - (elapsed + check_time) + check_time - 1 = check_time - 1 := by
      omega
    rw [h2, Nat.div_eq_of_lt (by omega), Nat.div_eq_of_lt (by omega)]
  · have h2 : timeout - (elapsed + check_time) + check_time - 1 =
        (timeout - elapsed - 1 - check_time) + check_time := by omega
    rw [h2, Nat.add_div_right _ hc]
    have h3 : timeout - elapsed - 1 = (timeout - elapsed - 1 - check_time) + check_time := by
      omega
    rw [h3, Nat.add_div_right _ hc]
    have h4 : timeout - elapsed - 1 - check_time + check_time - check_time =
        timeout - elapsed - 1 - check_time := by omega
    rw [h4]

/-- Auxiliary: with a finite timeout, a positive poll interval and a callback
that always returns normally, the loop runs for exactly the remaining number
of iterations and then raises `TimeoutError`, independently of any surplus
fuel. -/
theorem wait_till_delete_aux_timeout (callback : Nat → CallOutcome)
    (check_time timeout : Nat) (hc : 0 < check_time)
    (hok : ∀ k, callback k = .ok) :
    ∀ fuel calls sleeps elapsed,
      remainingIterations timeout check_time elapsed + 1 ≤ fuel →
      wait_till_delete_aux callback check_time (some timeout) calls sleeps elapsed fuel =
        .timedOut (calls + remainingIterations timeout check_time elapsed)
          (sleeps + remainingIterations timeout check_time elapsed) := by
  intro fuel
  induction fuel with
  | zero => intro calls sleeps elapsed h; omega
  | succ fuel ih =>
    intro calls sleeps elapsed h
    by_cases he : elapsed < timeout
    · have hcond : loopCondition (some timeout) elapsed = true := by
        simp [loopCondition, he]
      have step : wait_till_delete_aux callback check_time (some timeout)
            calls sleeps elapsed (fuel + 1) =
          wait_till_delete_aux callback check_time (some timeout)
            (calls + 1) (sleeps + 1) (elapsed + check_time) fuel := by
        simp [wait_till_delete_aux, hcond, hok calls]
      have hstep := remainingIterations_step timeout check_time elapsed hc he
      rw [step, ih (calls + 1) (sleeps + 1) (elapsed + check_time) (by omega)]
      have h1 : calls + 1 + remainingIterations timeout check_time (elapsed + check_time) =
          calls + remainingIterations timeout check_time elapsed := by omega
      have h2 : sleeps + 1 + remainingIterations timeout check_time (elapsed + check_time) =
          sleeps + remainingIterations timeout check_time elapsed := by omega
      rw [h1, h2]
    · have hcond : loopCondition (some timeout) elapsed = false := by
        simp [loopCondition]; omega
      have hzero : remainingIterations timeout check_time elapsed = 0 := by
        unfold remainingIterations
        have : timeout - elapsed + check_time - 1 = check_time - 1 := by omega
        rw [this, Nat.div_eq_of_lt (by omega)]
      simp [wait_till_delete_aux, hcond, hzero]

/-- **C6.** Delete-and-confirm timeout termination: for every finite timeout
and positive poll interval, if every delete-callback invocation returns
normally (never the "resource not found" client error, never any other
error), then `wait_till_delete` terminates by raising `TimeoutError` after
exactly `⌈timeout / check_time⌉` callback invocations (elapsed time counted
in `check_time` increments reaching the timeout), and the outcome — in
particular the call count — is the same for every larger fuel bound, so no
further delete calls are made afterwards. -/
theorem wait_till_delete_timeout_terminates (callback : Nat → CallOutcome)
    (check_time timeout : Nat) (hc : 0 < check_time)
    (hok : ∀ k, callback k = .ok) :
    ∀ fuel, remainingIterations timeout check_time 0 + 1 ≤ fuel →
      wait_till_delete callback check_time (some timeout) fuel =
        .timedOut (remainingIterations timeout check_time 0)
          (remainingIterations timeout check_time 0) := by
  intro fuel hfuel
  have := wait_till_delete_aux_timeout callback check_time timeout hc hok
    fuel 0 0 0 hfuel
  simpa [wait_till_delete] using this

/-- The delete callback that always returns normally (the resource never
reports itself gone). -/
def neverGoneCallback : Nat → CallOutcome := fun _ => .ok

/-- Witness for C6: timeout 12, interval 5: `TimeoutError` after exactly 3
calls and 3 sleeps, at two different fuel bounds (no further calls). -/
theorem wait_till_delete_timeout_terminates_witness :
    wait_till_delete neverGoneCallback 5 (some 12) 10 = .timedOut 3 3 ∧
    wait_till_delete neverGoneCallback 5 (some 12) 50 = .timedOut 3 3 :=
  ⟨wait_till_delete_timeout_terminates neverGoneCallback 5 12 (by decide)
      (fun _ => rfl) 10 (by decide),
   wait_till_delete_timeout_terminates neverGoneCallback 5 12 (by decide)
      (fun _ => rfl) 50 (by decide)⟩

/-- Auxiliary inversion: the loop returns successfully only via a callback
invocation that raised the `ResourceNotFoundException` client error; the call
count then points at exactly that invocation. -/
theorem wait_till_delete_aux_success_inv (callback : Nat → CallOutcome)
    (check_time : Nat) (timeout : Option Nat) :
    ∀ fuel calls sleeps elapsed m s,
      wait_till_delete_aux callback check_time timeout calls sleeps elapsed fuel =
        .success m s →
      0 < m ∧ callback (m - 1) = .clientError "ResourceNotFoundException" := by
  intro fuel
  induction fuel with
  | zero =>
    intro calls sleeps elapsed m s h
    simp [wait_till_delete_aux] at h
  | succ fuel ih =>
    intro calls sleeps elapsed m s h
    rw [wait_till_delete_aux] at h
    by_cases hcond : loopCondition timeout elapsed = true
    · rw [if_pos hcond] at h
      cases hcb : callback calls with
      | ok =>
        rw [hcb] at h
        exact ih (calls + 1) (sleeps + 1) (elapsed + check_time) m s h
      | clientError code =>
        rw [hcb] at h
        by_cases hcode : (code == "ResourceNotFoundException") = true
        · simp [hcode] at h
          obtain ⟨hm, hs⟩ := h
          refine ⟨by omega, ?_⟩
          have hcodeeq : code = "ResourceNotFoundException" := by
            simpa using hcode
          have hm1 : m - 1 = calls := by omega
          rw [hm1, hcb, hcodeeq]
        · simp [hcode] at h
    · rw [if_neg (by simpa using hcond)] at h
      cases h

/-- **C10.** Success comes only from absence: a delete-callback invocation
that returns normally never terminates `wait_till_delete` — with no timeout
and a callback that always returns normally, every fuel unit is consumed by
another sleep-and-reinvoke round and the loop never returns (first
conjunct: the return value is discarded, the loop state just advances); and
whenever `wait_till_delete` does return successfully, the last callback
invocation made is one that raised the `ResourceNotFoundException` client
error (second conjunct) — absence, not a normal delete-call return, is the
sole success signal. -/
theorem wait_till_delete_success_only_via_absence :
    (∀ (callback : Nat → CallOutcome) (check_time : Nat),
      (∀ k, callback k = .ok) →
      ∀ fuel, wait_till_delete callback check_time none fuel =
        .running fuel fuel (fuel * check_time)) ∧
    (∀ (callback : Nat → CallOutcome) (check_time : Nat) (timeout : Option Nat)
      (fuel m s : Nat),
      wait_till_delete callback check_time timeout fuel = .success m s →
      0 < m ∧ callback (m - 1) = .clientError "ResourceNotFoundException") := by
  constructor
  · intro callback check_time hok fuel
    have := wait_till_delete_aux_skip_ok callback check_time fuel 0 0 0 fuel
      (fun k _ => hok (0 + k)) (Nat.le_refl fuel)
    simpa [wait_till_delete, wait_till_delete_aux] using this
  · intro callback check_time timeout fuel m s h
    exact wait_till_delete_aux_success_inv callback check_time timeout
      fuel 0 0 0 m s h

/-- Witness for C10: an always-normally-returning callback leaves the loop
running after any fuel (here 3: 3 calls, 3 sleeps, elapsed 15); and a
concrete successful run of 2 calls did end with the not-found error on its
last (second) invocation. -/
theorem wait_till_delete_success_only_via_absence_witness :
    wait_till_delete neverGoneCallback 5 none 3 = .running 3 3 15 ∧
      (0 < 2 ∧ goneAfterOneCall (2 - 1) =
        .clientError "ResourceNotFoundException") :=
  ⟨wait_till_delete_success_only_via_absence.1 neverGoneCallback 5 (fun _ => rfl) 3,
   wait_till_delete_success_only_via_absence.2 goneAfterOneCall 5 none 10 2 1 (by rfl)⟩

/-- Delete callback modelling the remote service while a dependent resource
has not yet reached GONE: every delete attempt on the parent is rejected with
the in-use client error. -/
def dependentInUseCallback : Nat → CallOutcome :=
  fun _ => .clientError "ResourceInUseException"

/-- **C5 counterexample.** Deleting a parent resource while a dependent is not
yet gone: the remote delete call IS invoked — the outcome records one callback
invocation, not zero — and what surfaces is the raw re-raised
`ResourceInUseException` client error; `wait_till_delete` has no local
dependent check and no `DeleteBlockedByDependents` value, refuting "the remote
delete call is not invoked for that attempt". -/
theorem delete_blocked_counterexample :
    wait_till_delete dependentInUseCallback 5 none 10 =
      .raised "ResourceInUseException" 1 0 := by
  rfl

/-- **C5 amended.** Attempting to delete a resource while a dependent is not
yet gone invokes the remote delete call exactly once; the remote rejection
(`ResourceInUseException`) is re-raised as-is after that single invocation,
with no sleep, no retry and no further delete calls at any larger fuel bound
— the blocked deletion is surfaced by propagating the raw in-use error rather
than by a local pre-check. -/
theorem delete_blocked_propagates_in_use (callback : Nat → CallOutcome)
    (check_time : Nat)
    (hblocked : callback 0 = .clientError "ResourceInUseException") :
    ∀ fuel, 1 ≤ fuel →
      wait_till_delete callback check_time none fuel =
        .raised "ResourceInUseException" 1 0 := by
  intro fuel hfuel
  have h := wait_till_delete_first_client_error callback check_time 0
    "ResourceInUseException" (fun k hk => absurd hk (Nat.not_lt_zero k))
    hblocked fuel hfuel
  have hbeq : ("ResourceInUseException" == "ResourceNotFoundException") = false := by
    rfl
  rw [hbeq] at h
  simpa using h

/-- Witness for the amended C5: one invocation, immediate re-raise. -/
theorem delete_blocked_propagates_in_use_witness :
    wait_till_delete dependentInUseCallback 3 none 7 =
      .raised "ResourceInUseException" 1 0 :=
  delete_blocked_propagates_in_use dependentInUseCallback 3 rfl 7 (by decide)

/-! ## Lifecycle orchestration sequences

The notebooks have no graph-parametric orchestrator: creation and deletion
are fixed sequences of cells.  Those sequences are embedded as lists of
resource handles carrying the dependency edges of the lifecycle graph
(dataset group → datasets → import jobs → predictor → forecast → export),
plus the cell-order event trace of create calls and completed polling
loops. -/

/-- The six remote resource kinds. -/
inductive ResourceKind where
  | datasetGroup
  | dataset
  | importJob
  | predictor
  | forecast
  | exportJob
  deriving Repr, DecidableEq

/-- A remote resource handle: identifier, kind, identifiers it depends on. -/
structure ResourceHandle where
  identifier : String
  kind : ResourceKind
  dependsOn : List String
  deriving Repr, DecidableEq

/-- Creation sequence of the related-time-series advanced notebook, in cell
order: dataset group, target and related datasets, their import jobs, then
predictor/forecast pairs.  Dependency edges follow the lifecycle graph:
datasets belong to the dataset group, import jobs load their dataset,
predictors train on the dataset group once both imports are done, forecasts
come from their predictor. -/
def advancedCreationSequence : List ResourceHandle :=
  [ ⟨"project_dsg", .datasetGroup, []⟩,
    ⟨"project_tts", .dataset, ["project_dsg"]⟩,
    ⟨"project_rts", .dataset, ["project_dsg"]⟩,
    ⟨"project_tts_import", .importJob, ["project_tts"]⟩,
    ⟨"project_rts_import1", .importJob, ["project_rts"]⟩,
    ⟨"project_predictor_1", .predictor,
      ["project_dsg", "project_tts_import", "project_rts_import1"]⟩,
    ⟨"project_forecast_1", .forecast, ["project_predictor_1"]⟩,
    ⟨"project_predictor_2", .predictor,
      ["project_dsg", "project_tts_import", "project_rts_import1"]⟩,
    ⟨"project_forecast_2", .forecast, ["project_predictor_2"]⟩ ]

/-- Deletion sequence of the immersion-day Cleanup notebook, in cell order:
export jobs, forecasts, predictors, the import job, the dataset, the dataset
group. -/
def cleanupDeletionSequence : List ResourceHandle :=
  [ ⟨"deeparp_export_forecast", .exportJob, ["deeparp_forecast"]⟩,
    ⟨"arima_export_forecast", .exportJob, ["arima_forecast"]⟩,
    ⟨"prophet_export_forecast", .exportJob, ["prophet_forecast"]⟩,
    ⟨"prophet_forecast", .forecast, ["prophet"]⟩,
    ⟨"arima_forecast", .forecast, ["arima"]⟩,
    ⟨"deeparp_forecast", .forecast, ["deeparp"]⟩,
    ⟨"arima", .predictor, ["dataset_group", "ds_import_job"]⟩,
    ⟨"prophet", .predictor, ["dataset_group", "ds_import_job"]⟩,
    ⟨"deeparp", .predictor, ["dataset_group", "ds_import_job"]⟩,
    ⟨"ds_import_job", .importJob, ["target_dataset"]⟩,
    ⟨"target_dataset", .dataset, ["dataset_group"]⟩,
    ⟨"dataset_group", .datasetGroup, []⟩ ]

/-- `seen`-accumulating topological-order check: every entry of the list
depends only on identifiers that occur earlier (or in `seen`). -/
def isTopoOrder : List String → List ResourceHandle → Bool
  | _, [] => true
  | seen, h :: rest =>
    h.dependsOn.all (fun d => seen.contains d) &&
      isTopoOrder (h.identifier :: seen) rest

/-- Reverse-dependency check for a deletion sequence: no later entry depends
on an earlier entry, i.e. every dependent is deleted before each resource it
depends on. -/
def noLaterDependsOnEarlier : List ResourceHandle → Bool
  | [] => true
  | h :: rest =>
    rest.all (fun b => !(b.dependsOn.contains h.identifier)) &&
      noLaterDependsOnEarlier rest

/-- The kind-level creation order of the lifecycle graph. -/
def creationKindOrder : List ResourceKind :=
  [.datasetGroup, .dataset, .importJob, .predictor, .forecast, .exportJob]

/-- **C4.** Orchestration ordering on the concrete graphs the notebooks
realize: the creation sequence of the advanced notebook is a topological
order of its dependency graph (every resource is created after everything it
depends on), the Cleanup deletion sequence deletes every dependent before
each resource it depends on (no later entry is depended on by an earlier
one), and stage-by-stage the deletion order (exports, forecasts,
predictors, import job, dataset, dataset group) is the exact reverse of the
kind-level creation order. -/
theorem orchestration_ordering :
    isTopoOrder [] advancedCreationSequence = true ∧
      noLaterDependsOnEarlier cleanupDeletionSequence = true ∧
      (cleanupDeletionSequence.map ResourceHandle.kind).dedup =
        creationKindOrder.reverse := by
  refine ⟨by rfl, by rfl, by rfl⟩

/-- A notebook cell event: a create_* API call for a resource, or the
completion of a wait-until-terminal polling loop for it. -/
inductive NotebookEvent where
  | createCall (identifier : String)
  | waitCompleted (identifier : String)
  deriving Repr, DecidableEq

/-- Cell-order event trace of the advanced notebook: the dataset group and
datasets are created without polling loops; the two import jobs are created
back-to-back and only then are their two polling loops run; each
predictor/forecast creation is followed by its own wait. -/
def advancedEventTrace : List NotebookEvent :=
  [ .createCall "project_dsg",
    .createCall "project_tts",
    .createCall "project_rts",
    .createCall "project_tts_import",
    .createCall "project_rts_import1",
    .waitCompleted "project_tts_import",
    .waitCompleted "project_rts_import1",
    .createCall "project_predictor_1",
    .waitCompleted "project_predictor_1",
    .createCall "project_forecast_1",
    .waitCompleted "project_forecast_1",
    .createCall "project_predictor_2",
    .waitCompleted "project_predictor_2",
    .createCall "project_forecast_2",
    .waitCompleted "project_forecast_2" ]

/-- Position of an event in the advanced-notebook trace. -/
def eventIndex (e : NotebookEvent) : Nat :=
  advancedEventTrace.indexOf e

/-- **C9 counterexample.** The two independent dataset import jobs violate
"the earlier resource's create call and its wait-until-terminal poll both
complete before the later resource's create call is issued": the target
dataset import job is created first (trace index 3), yet the related one is
created (index 4) before the polling loop of the target import job completes
(index 5). -/
theorem sequential_create_wait_counterexample :
    eventIndex (.createCall "project_tts_import") <
        eventIndex (.createCall "project_rts_import1") ∧
      eventIndex (.createCall "project_rts_import1") <
        eventIndex (.waitCompleted "project_tts_import") := by
  decide

/-- Is there a wait-completion event for this identifier in the trace? -/
def hasWaitEvent (trace : List NotebookEvent) (i : String) : Bool :=
  trace.contains (.waitCompleted i)

/-- Walk the trace keeping the set of completed waits: at every create call,
every dependency of the created resource that has a polling loop in the trace
must already have completed it. -/
def createsAfterDependencyWaits (handles : List ResourceHandle)
    (fullTrace : List NotebookEvent) : List NotebookEvent → List String → Bool
  | [], _ => true
  | .waitCompleted i :: rest, done =>
    createsAfterDependencyWaits handles fullTrace rest (i :: done)
  | .createCall i :: rest, done =>
    (match handles.find? (fun h => h.identifier == i) with
     | some h =>
       h.dependsOn.all (fun d => !(hasWaitEvent fullTrace d) || done.contains d)
     | none => true) &&
      createsAfterDependencyWaits handles fullTrace rest done

/-- **C9 amended.** The create→wait cycles are sequential along dependency
edges only: in the advanced-notebook trace, every create call is preceded by
the completed polling loop of each of its dependencies that has one (both
predictors are created only after both import-job waits; each forecast only
after its predictor wait) — but resources without a dependency relationship,
namely the two import jobs, are created back-to-back before either wait loop
runs. -/
theorem sequential_create_wait_along_dependencies :
    createsAfterDependencyWaits advancedCreationSequence advancedEventTrace
      advancedEventTrace [] = true := by
  rfl

end ForecastSamples
